import Mathlib

/-!
Verification development for the EDHREC deck-tools backend
(`edhrec_backend.py`, class `EDHRecAnalyzer`).

The Python functions are embedded shallowly:

* JSON decimals (deck prices) are modelled as `Rat`;
* a parsed `datetime.strptime(s, "%Y-%m-%d")` value is modelled as a
  `Date` triple compared lexicographically (which is how `datetime`
  objects built from valid `YYYY-MM-DD` strings compare);
* Python's stable `sorted` is modelled by `List.insertionSort`
  (Mathlib's insertion sort is stable in the same sense: an element
  appearing earlier in the input stays before later elements whose
  sort keys are equal);
* Python `dict`s are modelled as insertion-ordered association lists
  with update-in-place / append-if-new insertion (`dictInsert`);
* mutation of the analyzer object and of argument structures is made
  explicit: stateful methods take and return an `AnalyzerState`, and
  `filter_deck_hashes` additionally returns the deck-table entries as
  they stand after the call (the Python code mutates them in place);
* HTTP traffic is an oracle (`EdhrecEnv`): the environment fixes the
  status code and decoded body each URL would produce, and the state
  counts network requests and rate-limiter invocations so that
  "no network call happened" is expressible;
* a raised (and not caught) Python exception is an `Except.error`.
-/

namespace EDHRec

/-- A calendar date, the value of `datetime.strptime(s, "%Y-%m-%d")` for a
valid `YYYY-MM-DD` string `s`. -/
structure Date where
  year : Nat
  month : Nat
  day : Nat
deriving DecidableEq, Repr

/-- Comparison of two parsed dates: `datetime` objects compare
lexicographically on (year, month, day). -/
def Date.le (a b : Date) : Prop :=
  a.year < b.year ∨
    (a.year = b.year ∧ (a.month < b.month ∨ (a.month = b.month ∧ a.day ≤ b.day)))

instance : DecidableRel Date.le := fun a b => by
  unfold Date.le
  infer_instance

theorem Date.le_refl (a : Date) : Date.le a a := by
  unfold Date.le
  omega

theorem Date.le_total (a b : Date) : Date.le a b ∨ Date.le b a := by
  unfold Date.le
  omega

theorem Date.le_trans {a b c : Date} (h₁ : Date.le a b) (h₂ : Date.le b c) :
    Date.le a c := by
  unfold Date.le at h₁ h₂ ⊢
  omega

/-- One element of `deck_table["table"]`: a JSON object with (at least)
the keys `urlhash`, `savedate` and `price`.  The `savedate` field is kept
in parsed form (the claims under scrutiny presuppose a valid `YYYY-MM-DD`
string, on which `strptime` cannot fail).  `savedate_dt` models the key
of the same name that `filter_deck_hashes` adds to the JSON object in
place; a fresh entry has no such key (`none`). -/
structure DeckEntry where
  urlhash : String
  savedate : Date
  price : Rat
  savedate_dt : Option Date := none
deriving DecidableEq, Repr

/-- `e["savedate_dt"] = datetime.strptime(e["savedate"], "%Y-%m-%d")`:
the in-place mutation performed on each entry. -/
def addSavedateDt (e : DeckEntry) : DeckEntry :=
  { e with savedate_dt := some e.savedate }

/-- The sort key `lambda e: e["savedate_dt"]` (total after the mutation has
run; the fallback value is irrelevant). -/
def dtKey (e : DeckEntry) : Date :=
  e.savedate_dt.getD (Date.mk 0 0 0)

/-- The ordering used by `sorted(entries, key=lambda e: e["savedate_dt"],
reverse=True)`: a stable sort with respect to this relation. -/
def entryGE (a b : DeckEntry) : Prop := Date.le (dtKey b) (dtKey a)

instance : DecidableRel entryGE := fun a b => by
  unfold entryGE
  infer_instance

instance : IsTotal DeckEntry entryGE :=
  ⟨fun a b => (Date.le_total (dtKey a) (dtKey b)).symm⟩

instance : IsTrans DeckEntry entryGE :=
  ⟨fun _ _ _ h₁ h₂ => Date.le_trans h₂ h₁⟩

/-- The same descending-date ordering, expressed on the original
(unmutated) `savedate` field; used to state properties about the input
entries themselves. -/
def entryDateGE (a b : DeckEntry) : Prop := Date.le b.savedate a.savedate

instance : DecidableRel entryDateGE := fun a b => by
  unfold entryDateGE
  infer_instance

instance : IsTotal DeckEntry entryDateGE :=
  ⟨fun a b => (Date.le_total a.savedate b.savedate).symm⟩

instance : IsTrans DeckEntry entryDateGE :=
  ⟨fun _ _ _ h₁ h₂ => Date.le_trans h₂ h₁⟩

/-- The price filter `min_price <= e["price"] <= max_price`. -/
def priceOk (minP maxP : Rat) (e : DeckEntry) : Bool :=
  decide (minP ≤ e.price ∧ e.price ≤ maxP)

/-- `EDHRecAnalyzer.filter_deck_hashes` (edhrec_backend.py:153-168).

The Python function first mutates every entry of `deck_table["table"]`
in place (adding the `savedate_dt` key), then stable-sorts the entries
by that key descending, filters by the inclusive price bounds, truncates
to the first `recent` entries and projects to `urlhash`.

The first component of the result is the returned list of hashes; the
second component is the argument list `deck_table["table"]` as it stands
after the call (every entry mutated). -/
def filter_deck_hashes (deck_table : List DeckEntry) (recent : Nat)
    (minP maxP : Rat) : List String × List DeckEntry :=
  let entries := deck_table.map addSavedateDt
  let sorted_entries := List.insertionSort entryGE entries
  let filtered := sorted_entries.filter (priceOk minP maxP)
  let limited := filtered.take recent
  (limited.map DeckEntry.urlhash, entries)

/-- The selection procedure as the specification words it ("retain entries
whose price lies in `[min_price, max_price]` inclusive; sort by save date
descending (stable); truncate to the first `limit` entries; project to
their hash identifiers"): filtering happens before sorting, and everything
is phrased on the input entries. -/
def select_spec (deck_table : List DeckEntry) (limit : Nat)
    (minP maxP : Rat) : List String :=
  ((List.insertionSort entryDateGE
      (deck_table.filter (priceOk minP maxP))).take limit).map DeckEntry.urlhash

/-! ### Python dictionaries

Python `dict`s (insertion-ordered) are modelled as association lists.
Assignment `d[k] = v` updates the value in place when the key is present
and appends a new pair otherwise. -/

/-- `d[k] = v` on a Python dict. -/
def dictInsert {β : Type} : List (String × β) → String → β → List (String × β)
  | [], k, v => [(k, v)]
  | (k', v') :: m, k, v =>
      if k' = k then (k, v) :: m else (k', v') :: dictInsert m k v

/-- `d.get(k)` / `k in d` on a Python dict. -/
def dictGet? {β : Type} : List (String × β) → String → Option β
  | [], _ => none
  | (k', v) :: m, k => if k' = k then some v else dictGet? m k

/-! ### Card counting (`count_cards`) -/

/-- `line.split(" ", 1)` together with the two-variable unpacking: `some`
of the pieces before and after the first space when the line contains a
space, `none` otherwise (in which case the unpacking raises `ValueError`
and the line is skipped). -/
def splitFirstSpace : List Char → Option (List Char × List Char)
  | [] => none
  | c :: cs =>
      if c = ' ' then some ([], cs)
      else (splitFirstSpace cs).map (fun p => (c :: p.1, p.2))

/-- Model of the builtin `int(s)` on the quantity token: an optional
single leading sign followed by a nonempty run of decimal digits.
(Surrounding whitespace and underscore digit-grouping, which CPython
also tolerates, are not modelled; no claim depends on them.) -/
def pyInt? (s : List Char) : Option Int :=
  let digits : List Char → Option Nat := fun ds =>
    if ds ≠ [] ∧ ds.all (·.isDigit) then
      some (ds.foldl (fun n c => 10 * n + (c.toNat - 48)) 0)
    else none
  match s with
  | '-' :: rest => (digits rest).map (fun n => -(n : Int))
  | '+' :: rest => (digits rest).map (fun n => (n : Int))
  | _ => (digits s).map (fun n => (n : Int))

/-- The parse performed on one deck line: quantity token and name token,
`none` when the line is skipped (no space, or `int(qty_str)` raises). -/
def parseDeckLine (line : String) : Option (String × Int) :=
  match splitFirstSpace line.data with
  | none => none
  | some (qtyStr, name) =>
      (pyInt? qtyStr).map (fun q => (String.mk name, q))

/-- The body of the inner loop of `count_cards`. -/
def countLine (m : List (String × Int)) (line : String) : List (String × Int) :=
  match parseDeckLine line with
  | none => m
  | some (name, qty) => dictInsert m name ((dictGet? m name).getD 0 + qty)

/-- `EDHRecAnalyzer.count_cards` (edhrec_backend.py:286-300). -/
def count_cards (all_decks : List (List String)) : List (String × Int) :=
  all_decks.foldl (fun m deck => deck.foldl countLine m) []

/-- What one line adds to the count of the card `name`: its quantity
when it parses to that name, nothing otherwise. -/
def lineContribution (name line : String) : Int :=
  match parseDeckLine line with
  | some p => if p.1 = name then p.2 else 0
  | none => 0

/-- Whether a line parses and names the card `name` (so that the card
gets a key in the count dict). -/
def lineHits (name line : String) : Bool :=
  match parseDeckLine line with
  | some p => p.1 == name
  | none => false

/-! ### Classification (`group_cards_by_type`) -/

/-- The keys of the `type_groups` dict, in insertion order (which is the
iteration order of `for t in type_groups`). -/
def typeLabels : List String :=
  [("Creature"), ("Instant"), ("Sorcery"), ("Artifact"), ("Enchantment"),
   ("Planeswalker"), ("Battle"), ("Land"), ("Unknown")]

/-- The eight real category labels, in the fixed enumeration order the
classification loop tries them (all labels except the fallback
`"Unknown"`). -/
def categoryLabels : List String :=
  [("Creature"), ("Instant"), ("Sorcery"), ("Artifact"), ("Enchantment"),
   ("Planeswalker"), ("Battle"), ("Land")]

/-- Python's substring test `sub in s`. -/
def strContains (s sub : String) : Bool :=
  decide (sub.data <:+: s.data)

/-- Where one card goes: the first label `t` of the loop
`for t in type_groups` with `t != "Unknown" and t in type_line`, and
`"Unknown"` when the loop finds none. -/
def classify (type_line : String) : String :=
  (typeLabels.find? (fun t => t ≠ ("Unknown") && strContains type_line t)).getD
    ("Unknown")

/-- The nine per-type sub-dicts, as a total map from label to sub-dict
(labels outside the nine yield `[]`, mirroring their absence). -/
def TypeGroups : Type := String → List (String × Int)

/-- `type_groups[t][card] = count`. -/
def updateGroup (groups : TypeGroups) (t card : String) (count : Int) :
    TypeGroups :=
  fun g => if g = t then dictInsert (groups g) card count else groups g

/-- One iteration of the classification loop: place `card` (with its
count) under the first matching label, or under `"Unknown"`. -/
def placeCard (getType : String → String) (groups : TypeGroups)
    (card : String) (count : Int) : TypeGroups :=
  match typeLabels.find?
      (fun t => t ≠ ("Unknown") && strContains (getType card) t) with
  | some t => updateGroup groups t card count
  | none => updateGroup groups ("Unknown") card count

/-- `EDHRecAnalyzer.group_cards_by_type` (edhrec_backend.py:302-328),
with the card-type resolution `self.get_card_type` abstracted as the
function `getType` (each card's resolved type line). -/
def group_cards_by_type (getType : String → String)
    (card_counts : List (String × Int)) : TypeGroups :=
  card_counts.foldl (fun groups p => placeCard getType groups p.1 p.2)
    (fun _ => [])

/-! ### Analyzer state and network environment

Stateful methods of `EDHRecAnalyzer` are embedded as functions from an
explicit state (and a network oracle) to a result together with the new
state.  The state counts network requests and rate-limiter invocations,
so that "this call performed no network request and no rate-limit wait"
is the statement that those counters are unchanged.  A Python exception
that escapes the method is `Except.error` with the message. -/

/-- The mutable fields of `EDHRecAnalyzer` (plus observation counters).
The two cache dicts double as the on-disk stores they are persisted to:
`save_deck_to_cache` / `save_scryfall_cache` write exactly this data. -/
structure AnalyzerState where
  build_id : Option String := none
  deckCache : List (String × List String) := []
  scryfallCache : List (String × String) := []
  edhrecCalls : Nat := 0
  scryfallCalls : Nat := 0
  edhrecWaits : Nat := 0
  scryfallWaits : Nat := 0
deriving Repr

/-- Decoded body of a deck-detail response, as far as the extraction
`r.json()["pageProps"]["data"]["deck"]` is concerned. -/
inductive DeckJson where
  /-- The body is not valid JSON: `r.json()` raises (a `ValueError`,
  which the surrounding `except KeyError` does not catch). -/
  | invalid
  /-- Valid JSON, but the path `pageProps.data.deck` hits a missing
  dict key: `KeyError`, caught. -/
  | missingDeckPath
  /-- Valid JSON with the deck (an array of line strings) at the path. -/
  | withDeck (deck : List String)
deriving DecidableEq, Repr

/-- Decoded body of a Scryfall card lookup response. -/
inductive CardJson where
  /-- Not valid JSON: `r.json()` raises. -/
  | invalid
  /-- Valid JSON object; `tl?` is its `type_line` field if present. -/
  | withTypeLine (tl? : Option String)
deriving DecidableEq, Repr

/-- The network oracle: what each request this run could make would
receive.  (The run itself never alters the remote side.) -/
structure EdhrecEnv where
  homeStatus : Nat
  homeHtml : List Char
  deckStatus : String → Nat
  deckJson : String → DeckJson
  cardStatus : String → Nat
  cardJson : String → CardJson

/-- `rate_limit_edhrec`: sleeping and timestamping are abstracted to the
invocation count. -/
def rate_limit_edhrec (st : AnalyzerState) : AnalyzerState :=
  { st with edhrecWaits := st.edhrecWaits + 1 }

/-- `rate_limit_scryfall`. -/
def rate_limit_scryfall (st : AnalyzerState) : AnalyzerState :=
  { st with scryfallWaits := st.scryfallWaits + 1 }

/-- Python truthiness of `self.build_id` (a string or `None`). -/
def pyTruthyId (o : Option String) : Bool :=
  match o with
  | none => false
  | some s => decide (s ≠ (""))

/-! ### Build id discovery (`fetch_edhrec_build_id`)

Python string primitives, on `List Char`: -/

/-- `s.find(pat, start)`: the least index `i ≥ start` at which `pat`
occurs in `s`, `none` for Python's `-1`. -/
def findSubFrom (s pat : List Char) (start : Nat) : Option Nat :=
  (List.range (s.length + 1)).find?
    (fun i => start ≤ i && decide (pat <+: s.drop i))

/-- `s.rfind(pat)`: the greatest index at which `pat` occurs in `s`. -/
def rfindSub (s pat : List Char) : Option Nat :=
  (List.range (s.length + 1)).reverse.find? (fun i => decide (pat <+: s.drop i))

/-- `s[start:stop]` where `stop` came from `find` and may be `-1`
(`none`): Python then cuts at the second-to-last character. -/
def pySliceNeg (s : List Char) (start : Nat) (stop : Option Nat) : List Char :=
  match stop with
  | some e => (s.take e).drop start
  | none => (s.take (s.length - 1)).drop start

/-- The marker `"_buildManifest.js"`. -/
def buildManifestMarker : List Char := ("_buildManifest.js").data

/-- The marker `"/_next/static/"`. -/
def staticMarker : List Char := ("/_next/static/").data

/-- `EDHRecAnalyzer.fetch_edhrec_build_id` (edhrec_backend.py:77-113). -/
def fetch_edhrec_build_id (st : AnalyzerState) (env : EdhrecEnv) :
    Except String (String × AnalyzerState) :=
  if pyTruthyId st.build_id then .ok (st.build_id.getD (""), st)
  else
    let st := rate_limit_edhrec st
    let st := { st with edhrecCalls := st.edhrecCalls + 1 }
    if env.homeStatus ≠ 200 then
      .error ("Failed to load EDHREC homepage to detect build ID")
    else
      let html := env.homeHtml
      match findSubFrom html buildManifestMarker 0 with
      | none => .error ("Could not find _buildManifest.js reference in homepage.")
      | some idx =>
        let pre := html.take idx
        match rfindSub pre staticMarker with
        | none => .error ("Could not locate /_next/static/ in homepage.")
        | some staticIdx =>
          let start := staticIdx + staticMarker.length
          let stop := findSubFrom pre [('/')] start
          let buildId := String.mk (pySliceNeg pre start stop)
          if buildId = ("") ∨ buildId.length < 5 then
            .error (("Extracted invalid EDHREC build ID: ") ++ buildId)
          else .ok (buildId, { st with build_id := some buildId })

/-- The extracted candidate segment (lines 104-106 of the source): from
the character after the path-prefix marker up to the next `/` in the
scanned region — or, when no such `/` exists (`find` returns `-1`), up
to the second-to-last character of the scanned region. -/
def buildIdSlice (html : List Char) (idx sIdx : Nat) : List Char :=
  pySliceNeg (html.take idx) (sIdx + staticMarker.length)
    (findSubFrom (html.take idx) [('/')] (sIdx + staticMarker.length))

/-! ### Deck cache and deck fetching -/

/-- `load_deck_from_cache`: read `deck_cache/<deck_id>.json`. -/
def load_deck_from_cache (st : AnalyzerState) (deck_id : String) :
    Option (List String) :=
  dictGet? st.deckCache deck_id

/-- `save_deck_to_cache`: `json.dump` the deck to
`deck_cache/<deck_id>.json` (a full overwrite). -/
def save_deck_to_cache (st : AnalyzerState) (deck_id : String)
    (deck : List String) : AnalyzerState :=
  { st with deckCache := dictInsert st.deckCache deck_id deck }

/-- Python truthiness of the cache-lookup result (`if cached:`): `None`
and the empty list are both falsy. -/
def pyTruthyDeck (o : Option (List String)) : Bool :=
  match o with
  | none => false
  | some l => decide (l ≠ [])

/-- `EDHRecAnalyzer.fetch_deck_by_hash` (edhrec_backend.py:193-216). -/
def fetch_deck_by_hash (st : AnalyzerState) (env : EdhrecEnv)
    (deck_id : String) : Except String (Option (List String) × AnalyzerState) :=
  let cached := load_deck_from_cache st deck_id
  if pyTruthyDeck cached then .ok (cached, st)
  else
    match (if pyTruthyId st.build_id then Except.ok st
           else (fetch_edhrec_build_id st env).map (fun p => p.2)) with
    | .error e => .error e
    | .ok st₁ =>
      let st₂ := rate_limit_edhrec st₁
      let st₃ := { st₂ with edhrecCalls := st₂.edhrecCalls + 1 }
      if env.deckStatus deck_id ≠ 200 then .ok (none, st₃)
      else
        match env.deckJson deck_id with
        | .invalid => .error ("JSONDecodeError")
        | .missingDeckPath => .ok (none, st₃)
        | .withDeck deck => .ok (some deck, save_deck_to_cache st₃ deck_id deck)

/-- `EDHRecAnalyzer.fetch_decks_parallel` (edhrec_backend.py:222-244),
with each worker's outcome given by the oracle `fetchResult` (the value,
or the exception, that `future.result()` for that hash delivers), and
`as_completed` order serialized to submission order.  A raised
exception is caught (`except Exception`), printed and dropped; `None`
results and empty decks fail the `if deck:` test and are dropped too. -/
def fetch_decks_parallel
    (fetchResult : String → Except String (Option (List String)))
    (deck_hashes : List String) : List (List String) :=
  deck_hashes.foldl
    (fun all_decks deck_id =>
      match fetchResult deck_id with
      | .error _ => all_decks
      | .ok none => all_decks
      | .ok (some deck) =>
          if deck = [] then all_decks else all_decks ++ [deck])
    []

/-! ### Card type lookup (`get_card_type`) -/

/-- The cache write `self.scryfall_cache[card_name] = v` followed by
`self.save_scryfall_cache()` (which persists exactly this dict). -/
def save_scryfall (st : AnalyzerState) (card_name v : String) :
    AnalyzerState :=
  { st with scryfallCache := dictInsert st.scryfallCache card_name v }

/-- `EDHRecAnalyzer.get_card_type` (edhrec_backend.py:263-280). -/
def get_card_type (st : AnalyzerState) (env : EdhrecEnv)
    (card_name : String) : Except String (String × AnalyzerState) :=
  match dictGet? st.scryfallCache card_name with
  | some v => .ok (v, st)
  | none =>
    let st := rate_limit_scryfall st
    let st := { st with scryfallCalls := st.scryfallCalls + 1 }
    if env.cardStatus card_name ≠ 200 then
      .ok (("Unknown"), save_scryfall st card_name ("Unknown"))
    else
      match env.cardJson card_name with
      | .invalid => .error ("JSONDecodeError")
      | .withTypeLine tl? =>
        let type_line := tl?.getD ("Unknown")
        .ok (type_line, save_scryfall st card_name type_line)

/-- A later run: `EDHRecAnalyzer.__init__` of a fresh process reloads
the persisted Scryfall cache, the deck-cache directory persists on
disk, and the in-memory build id and this model's counters start
afresh. -/
def freshRun (st : AnalyzerState) : AnalyzerState :=
  { build_id := none, deckCache := st.deckCache,
    scryfallCache := st.scryfallCache, edhrecCalls := 0,
    scryfallCalls := 0, edhrecWaits := 0, scryfallWaits := 0 }

/-! ## Helper lemmas: Python dicts -/

theorem dictGet?_dictInsert {β : Type} (m : List (String × β)) (k : String)
    (v : β) (k' : String) :
    dictGet? (dictInsert m k v) k' = if k = k' then some v else dictGet? m k' := by
  induction m with
  | nil => simp [dictInsert, dictGet?]
  | cons p m ih =>
    obtain ⟨k₀, v₀⟩ := p
    by_cases h : k₀ = k
    · subst h
      by_cases h' : k₀ = k'
      · subst h'
        simp [dictInsert, dictGet?]
      · simp [dictInsert, dictGet?, h']
    · by_cases h' : k₀ = k'
      · subst h'
        have hne : k ≠ k₀ := fun e => h e.symm
        simp [dictInsert, dictGet?, h, hne]
      · simp [dictInsert, dictGet?, h, h', ih]

theorem dictInsert_of_get?_eq_none {β : Type} (m : List (String × β))
    (k : String) (v : β) (h : dictGet? m k = none) :
    dictInsert m k v = m ++ [(k, v)] := by
  induction m with
  | nil => simp [dictInsert]
  | cons p m ih =>
    obtain ⟨k₀, v₀⟩ := p
    by_cases h' : k₀ = k
    · subst h'
      simp [dictGet?] at h
    · simp only [dictGet?, if_neg h'] at h
      simp [dictInsert, h', ih h]

theorem dictGet?_eq_some_iff_mem {β : Type} (m : List (String × β))
    (hN : (m.map Prod.fst).Nodup) (k : String) (v : β) :
    dictGet? m k = some v ↔ (k, v) ∈ m := by
  induction m with
  | nil => simp [dictGet?]
  | cons p m ih =>
    obtain ⟨k₀, v₀⟩ := p
    simp only [List.map_cons, List.nodup_cons] at hN
    by_cases h : k₀ = k
    · subst h
      have hdg : dictGet? ((k₀, v₀) :: m) k₀ = some v₀ := by simp [dictGet?]
      rw [hdg]
      simp only [List.mem_cons, Option.some_inj]
      constructor
      · intro he
        exact Or.inl (by rw [he])
      · rintro (he | hm)
        · exact (congrArg Prod.snd he).symm
        · exact absurd (List.mem_map_of_mem Prod.fst hm) hN.1
    · simp only [dictGet?, if_neg h, List.mem_cons, ih hN.2]
      constructor
      · exact Or.inr
      · rintro (he | hm)
        · cases he
          exact absurd rfl h
        · exact hm

/-! ## Helper lemmas: card counting -/

theorem foldl_countLine_lookup (lines : List String)
    (m : List (String × Int)) (name : String) :
    dictGet? (lines.foldl countLine m) name =
      if (lines.any (lineHits name) || (dictGet? m name).isSome) = true
      then some ((dictGet? m name).getD 0 +
                  (lines.map (lineContribution name)).sum)
      else none := by
  induction lines generalizing m with
  | nil =>
    cases h : dictGet? m name with
    | none => simp [h]
    | some v => simp [h]
  | cons line lines ih =>
    rw [List.foldl_cons, ih]
    cases hP : parseDeckLine line with
    | none =>
      simp [countLine, lineHits, lineContribution, hP]
    | some p =>
      obtain ⟨n, q⟩ := p
      by_cases hn : n = name
      · subst hn
        have hm' : dictGet? (countLine m line) n =
            some ((dictGet? m n).getD 0 + q) := by
          simp [countLine, hP, dictGet?_dictInsert]
        simp only [countLine, hP] at hm' ⊢
        simp [hm', lineHits, lineContribution, hP, add_assoc]
      · have hm' : dictGet? (countLine m line) name = dictGet? m name := by
          simp [countLine, hP, dictGet?_dictInsert, hn]
        simp only [countLine, hP] at hm' ⊢
        simp [hm', lineHits, lineContribution, hP, hn]

theorem count_cards_eq_foldl_flatten (all_decks : List (List String)) :
    count_cards all_decks = all_decks.flatten.foldl countLine [] :=
  (List.foldl_flatten countLine [] all_decks).symm

theorem count_cards_lookup (all_decks : List (List String)) (name : String) :
    dictGet? (count_cards all_decks) name =
      if all_decks.flatten.any (lineHits name) = true
      then some ((all_decks.flatten.map (lineContribution name)).sum)
      else none := by
  rw [count_cards_eq_foldl_flatten, foldl_countLine_lookup]
  simp [dictGet?]

/-! ## Claim theorems: card counting -/

/-- C5: `count_cards` splits every line at its first space, accumulates
the parsed quantity under the name token, and silently skips every line
that does not parse as `<integer> <rest-of-line>`; the resulting dict
maps a name to the total contribution of the lines that parse to it
(and has no key for a name no line parses to).  In particular
`"3 Sol Ring"` parses to quantity 3 for `"Sol Ring"`, the spaceless
line `"Sol Ring"` does not parse (in Python: the unpacking raises
`ValueError`, which the loop catches and turns into `continue`), and a
deck consisting of those two lines yields exactly `{"Sol Ring": 3}`. -/
theorem count_cards_spec :
    (∀ (all_decks : List (List String)) (name : String),
      dictGet? (count_cards all_decks) name =
        if all_decks.flatten.any (lineHits name) = true
        then some ((all_decks.flatten.map (lineContribution name)).sum)
        else none)
    ∧ parseDeckLine ("3 Sol Ring") = some (("Sol Ring"), 3)
    ∧ parseDeckLine ("Sol Ring") = none
    ∧ count_cards [[("3 Sol Ring"), ("Sol Ring")]] = [(("Sol Ring"), 3)] := by
  refine ⟨count_cards_lookup, by decide, by decide, by decide⟩

/-- C9: the count map is invariant under permuting the deck list — the
dicts produced from a list of decks and from any permutation of it hold
the same keys with the same values (`dictGet?` agrees everywhere, which
is Python dict equality). -/
theorem count_cards_perm (decks decks' : List (List String))
    (h : List.Perm decks decks') (name : String) :
    dictGet? (count_cards decks) name = dictGet? (count_cards decks') name := by
  have hf : List.Perm decks.flatten decks'.flatten := h.flatten
  have hany : decks.flatten.any (lineHits name) =
      decks'.flatten.any (lineHits name) := by
    rw [List.any_eq, List.any_eq]
    simp only [hf.mem_iff]
  have hsum : (decks.flatten.map (lineContribution name)).sum =
      (decks'.flatten.map (lineContribution name)).sum :=
    (hf.map (lineContribution name)).sum_eq
  rw [count_cards_lookup, count_cards_lookup, hany, hsum]

/-- Witness for C9 at a concrete permutation. -/
theorem count_cards_perm_witness :
    dictGet? (count_cards [[("3 Sol Ring")], [("1 Forest"), ("2 Sol Ring")]])
        ("Sol Ring") =
      dictGet? (count_cards [[("1 Forest"), ("2 Sol Ring")], [("3 Sol Ring")]])
        ("Sol Ring") :=
  count_cards_perm _ _ (by decide) ("Sol Ring")

/-! ## Helper lemmas: classification -/

theorem placeCard_eq (getType : String → String) (groups : TypeGroups)
    (card : String) (count : Int) :
    placeCard getType groups card count =
      updateGroup groups (classify (getType card)) card count := by
  unfold placeCard classify
  cases hf : typeLabels.find?
      (fun t => t ≠ ("Unknown") && strContains (getType card) t) with
  | none => simp
  | some t => simp

theorem groups_foldl_eq (getType : String → String)
    (counts : List (String × Int)) (groups₀ : TypeGroups) (g : String) :
    counts.foldl (fun groups p => placeCard getType groups p.1 p.2) groups₀ g =
      (counts.filter (fun p => classify (getType p.1) == g)).foldl
        (fun m p => dictInsert m p.1 p.2) (groups₀ g) := by
  induction counts generalizing groups₀ with
  | nil => rfl
  | cons p rest ih =>
    obtain ⟨card, count⟩ := p
    rw [List.foldl_cons, ih, placeCard_eq]
    by_cases h : classify (getType card) = g
    · simp [updateGroup, List.filter_cons, h]
    · have h' : ¬g = classify (getType card) := fun e => h e.symm
      simp [updateGroup, List.filter_cons, h, h']

theorem dictGet?_append_of_none {β : Type} (m₁ m₂ : List (String × β))
    (k : String) (h : dictGet? m₁ k = none) :
    dictGet? (m₁ ++ m₂) k = dictGet? m₂ k := by
  induction m₁ with
  | nil => simp
  | cons p m ih =>
    obtain ⟨k₀, v₀⟩ := p
    by_cases h' : k₀ = k
    · simp [dictGet?, h'] at h
    · simp only [dictGet?, if_neg h'] at h
      simp [dictGet?, h', ih h]

theorem foldl_dictInsert_eq_append {β : Type} (items m : List (String × β))
    (hdisj : ∀ p ∈ items, dictGet? m p.1 = none)
    (hN : (items.map Prod.fst).Nodup) :
    items.foldl (fun acc p => dictInsert acc p.1 p.2) m = m ++ items := by
  induction items generalizing m with
  | nil => simp
  | cons p rest ih =>
    obtain ⟨k, v⟩ := p
    simp only [List.map_cons, List.nodup_cons] at hN
    have hstep : dictInsert m k v = m ++ [(k, v)] :=
      dictInsert_of_get?_eq_none m k v (hdisj _ (List.mem_cons_self _ _))
    have hdisj' : ∀ q ∈ rest, dictGet? (m ++ [(k, v)]) q.1 = none := by
      intro q hq
      have h1 : dictGet? m q.1 = none := hdisj q (List.mem_cons_of_mem _ hq)
      have h2 : ¬k = q.1 := by
        intro e
        exact hN.1 (e ▸ List.mem_map_of_mem Prod.fst hq)
      rw [dictGet?_append_of_none _ _ _ h1]
      simp [dictGet?, h2]
    rw [List.foldl_cons, hstep, ih (m ++ [(k, v)]) hdisj' hN.2,
      List.append_assoc]
    rfl

theorem group_cards_by_type_eq_filter (getType : String → String)
    (counts : List (String × Int)) (hN : (counts.map Prod.fst).Nodup)
    (g : String) :
    group_cards_by_type getType counts g =
      counts.filter (fun p => classify (getType p.1) == g) := by
  have hsub : ((counts.filter (fun p => classify (getType p.1) == g)).map
      Prod.fst).Nodup :=
    List.Nodup.sublist (List.Sublist.map Prod.fst (List.filter_sublist counts)) hN
  unfold group_cards_by_type
  rw [groups_foldl_eq]
  exact foldl_dictInsert_eq_append _ _ (fun p _ => rfl) hsub

theorem classify_mem_typeLabels (tl : String) : classify tl ∈ typeLabels := by
  unfold classify
  cases hf : typeLabels.find?
      (fun t => t ≠ ("Unknown") && strContains tl t) with
  | none =>
    simp only [Option.getD_none]
    decide
  | some t =>
    simpa using List.mem_of_find?_eq_some hf

theorem classify_eq_categories (tl : String) :
    classify tl =
      (categoryLabels.find? (fun t => strContains tl t)).getD ("Unknown") := by
  unfold classify typeLabels categoryLabels
  simp only [List.find?]
  cases strContains tl ("Creature") <;>
    cases strContains tl ("Instant") <;>
    cases strContains tl ("Sorcery") <;>
    cases strContains tl ("Artifact") <;>
    cases strContains tl ("Enchantment") <;>
    cases strContains tl ("Planeswalker") <;>
    cases strContains tl ("Battle") <;>
    cases strContains tl ("Land") <;>
    rfl

/-! ## Claim theorems: classification -/

/-- C4: a card goes under the first category label, in the fixed order
Creature, Instant, Sorcery, Artifact, Enchantment, Planeswalker,
Battle, Land, that occurs as a substring of its resolved type line
(`classify`), and under `"Unknown"` exactly when none occurs; every
input card lands in exactly the group so described, and the type line
`"Legendary Creature — Human Wizard"` classifies as `"Creature"`. -/
theorem group_cards_by_type_first_label :
    (∀ tl, classify tl =
        (categoryLabels.find? (fun t => strContains tl t)).getD ("Unknown"))
    ∧ (∀ tl, classify tl = ("Unknown") ↔
        ∀ t ∈ categoryLabels, ¬strContains tl t = true)
    ∧ (∀ (getType : String → String) (counts : List (String × Int))
        (card : String) (count : Int),
        (counts.map Prod.fst).Nodup → (card, count) ∈ counts →
          (card, count) ∈
              group_cards_by_type getType counts (classify (getType card)) ∧
            ∀ g, (card, count) ∈ group_cards_by_type getType counts g →
              g = classify (getType card))
    ∧ classify ("Legendary Creature — Human Wizard") = ("Creature") := by
  have hUnk : ∀ tl, classify tl = ("Unknown") ↔
      ∀ t ∈ categoryLabels, ¬strContains tl t = true := by
    intro tl
    rw [classify_eq_categories]
    cases hf : categoryLabels.find? (fun t => strContains tl t) with
    | none =>
      simp only [Option.getD_none, true_iff]
      exact fun t ht => by
        have := List.find?_eq_none.mp hf t ht
        simpa using this
    | some t =>
      have ht : t ∈ categoryLabels := List.mem_of_find?_eq_some hf
      have hp : strContains tl t = true := List.find?_some hf
      simp only [Option.getD_some]
      constructor
      · intro he
        exact absurd (he ▸ ht) (by decide)
      · intro hall
        exact absurd hp (hall t ht)
  refine ⟨classify_eq_categories, hUnk, ?_, by decide⟩
  intro getType counts card count hN hmem
  have hfil := group_cards_by_type_eq_filter getType counts hN
  constructor
  · rw [hfil]
    exact List.mem_filter.mpr ⟨hmem, by simp⟩
  · intro g hg
    rw [hfil] at hg
    have := (List.mem_filter.mp hg).2
    exact (beq_iff_eq.mp this).symm ▸ rfl

/-- Witness for C4: with every lookup resolving to
`"Legendary Creature — Human Wizard"`, the card `"Sol Ring"` is placed
under `"Creature"`. -/
theorem group_cards_by_type_first_label_witness :
    (("Sol Ring"), (1 : Int)) ∈
      group_cards_by_type (fun _ => ("Legendary Creature — Human Wizard"))
        [(("Sol Ring"), (1 : Int))] ("Creature") := by
  have h := group_cards_by_type_first_label.2.2.1
    (fun _ => ("Legendary Creature — Human Wizard"))
    [(("Sol Ring"), (1 : Int))] ("Sol Ring") 1 (by decide)
    (List.mem_singleton.mpr rfl)
  have hc : classify ((fun _ => ("Legendary Creature — Human Wizard"))
      ("Sol Ring")) = ("Creature") := group_cards_by_type_first_label.2.2.2
  exact hc ▸ h.1

/-- C10: for distinct input card names, the nine groups partition the
input exactly — each group holds precisely the input pairs classified
to its label, every input pair belongs to exactly one group (with its
count unchanged, being the very same pair), and the groups hold nothing
but input pairs. -/
theorem group_cards_by_type_partition (getType : String → String)
    (counts : List (String × Int)) (hN : (counts.map Prod.fst).Nodup) :
    (∀ g, group_cards_by_type getType counts g =
        counts.filter (fun p => classify (getType p.1) == g))
    ∧ (∀ p ∈ counts,
        ∃! g, g ∈ typeLabels ∧ p ∈ group_cards_by_type getType counts g)
    ∧ (∀ g p, p ∈ group_cards_by_type getType counts g → p ∈ counts) := by
  have hfil := group_cards_by_type_eq_filter getType counts hN
  refine ⟨hfil, ?_, ?_⟩
  · intro p hp
    refine ⟨classify (getType p.1), ⟨classify_mem_typeLabels _, ?_⟩, ?_⟩
    · rw [hfil]
      exact List.mem_filter.mpr ⟨hp, by simp⟩
    · rintro g ⟨-, hg⟩
      rw [hfil] at hg
      exact (beq_iff_eq.mp (List.mem_filter.mp hg).2).symm
  · intro g p hg
    rw [hfil] at hg
    exact (List.mem_filter.mp hg).1

/-- Witness for C10 at a concrete two-card input. -/
theorem group_cards_by_type_partition_witness :
    group_cards_by_type (fun c => if c = ("Sol Ring") then ("Artifact")
        else ("Forest")) [(("Sol Ring"), (4 : Int)), (("Forest"), 9)]
        ("Artifact") =
      [(("Sol Ring"), (4 : Int))] := by
  have h := (group_cards_by_type_partition
    (fun c => if c = ("Sol Ring") then ("Artifact") else ("Forest"))
    [(("Sol Ring"), (4 : Int)), (("Forest"), 9)] (by decide)).1 ("Artifact")
  rw [h]
  decide

/-! ## Helper lemmas: stable sorting and filtering -/

theorem orderedInsert_of_forall_rel {α : Type} (r : α → α → Prop)
    [DecidableRel r] (x : α) (l : List α) (h : ∀ b ∈ l, r x b) :
    List.orderedInsert r x l = x :: l := by
  cases l with
  | nil => rfl
  | cons b l => exact List.orderedInsert_of_le r l (h b (List.mem_cons_self b l))

theorem filter_orderedInsert {α : Type} (r : α → α → Prop) [DecidableRel r]
    [IsTrans α r] (p : α → Bool) (x : α) :
    ∀ l : List α, l.Sorted r →
      (List.orderedInsert r x l).filter p =
        if p x then List.orderedInsert r x (l.filter p) else l.filter p
  | [], _ => by
    by_cases hp : p x <;> simp [List.orderedInsert, hp]
  | b :: l, hl => by
    by_cases hr : r x b
    · rw [List.orderedInsert_of_le r l hr]
      by_cases hp : p x
      · rw [if_pos hp, List.filter_cons_of_pos hp]
        by_cases hpb : p b
        · rw [List.filter_cons_of_pos hpb, List.orderedInsert_of_le r _ hr]
        · rw [List.filter_cons_of_neg hpb]
          refine (orderedInsert_of_forall_rel r x _ ?_).symm
          intro c hc
          exact trans_of r hr
            (List.rel_of_sorted_cons hl _ (List.mem_filter.mp hc).1)
      · rw [if_neg hp, List.filter_cons_of_neg hp]
    · have hstep : List.orderedInsert r x (b :: l) =
          b :: List.orderedInsert r x l := by
        simp [List.orderedInsert, hr]
      rw [hstep]
      have ih := filter_orderedInsert r p x l hl.of_cons
      by_cases hpb : p b
      · rw [List.filter_cons_of_pos hpb, ih]
        by_cases hp : p x
        · rw [if_pos hp, if_pos hp, List.filter_cons_of_pos hpb]
          simp [List.orderedInsert, hr]
        · rw [if_neg hp, if_neg hp, List.filter_cons_of_pos hpb]
      · rw [List.filter_cons_of_neg hpb, ih]
        by_cases hp : p x
        · rw [if_pos hp, if_pos hp, List.filter_cons_of_neg hpb]
        · rw [if_neg hp, if_neg hp, List.filter_cons_of_neg hpb]

theorem filter_insertionSort {α : Type} (r : α → α → Prop) [DecidableRel r]
    [IsTotal α r] [IsTrans α r] (p : α → Bool) :
    ∀ l : List α,
      (List.insertionSort r l).filter p = List.insertionSort r (l.filter p)
  | [] => rfl
  | x :: l => by
    rw [List.insertionSort,
      filter_orderedInsert r p x _ (List.sorted_insertionSort r l),
      filter_insertionSort r p l]
    by_cases hp : p x
    · rw [if_pos hp, List.filter_cons_of_pos hp, List.insertionSort]
    · rw [if_neg hp, List.filter_cons_of_neg hp]

theorem insertionSort_map_addSavedateDt (l : List DeckEntry) :
    (List.insertionSort entryDateGE l).map addSavedateDt =
      List.insertionSort entryGE (l.map addSavedateDt) :=
  List.map_insertionSort entryDateGE entryGE addSavedateDt l
    (fun _ _ _ _ => Iff.rfl)

/-! ## Claim theorems: deck filtering -/

/-- C1: the hashes returned by `filter_deck_hashes` are exactly the
price-eligible entries' hashes, most recent save date first with ties
kept in original input order, truncated to the first `recent`; in
particular the output is no longer than `recent` and stems only from
entries whose price lies inclusively between the bounds.  (Conjunct 1:
equality with the spec's filter-then-stable-sort-then-truncate
selection; conjunct 2: length bound; conjunct 3: every returned hash
comes from an input entry within the price bounds; conjunct 4: the
selected entries are in descending save-date order; conjunct 5:
stability — two price-eligible entries with equal dates stay in their
input order when sorted.) -/
theorem filter_deck_hashes_spec (deck_table : List DeckEntry) (recent : Nat)
    (minP maxP : Rat) :
    (filter_deck_hashes deck_table recent minP maxP).1 =
        select_spec deck_table recent minP maxP
    ∧ (filter_deck_hashes deck_table recent minP maxP).1.length ≤ recent
    ∧ (∀ h ∈ (filter_deck_hashes deck_table recent minP maxP).1,
        ∃ e ∈ deck_table, e.urlhash = h ∧ minP ≤ e.price ∧ e.price ≤ maxP)
    ∧ List.Sorted entryDateGE
        ((List.insertionSort entryDateGE
          (deck_table.filter (priceOk minP maxP))).take recent)
    ∧ (∀ a b : DeckEntry, a.savedate = b.savedate →
        [a, b].Sublist (deck_table.filter (priceOk minP maxP)) →
        [a, b].Sublist (List.insertionSort entryDateGE
          (deck_table.filter (priceOk minP maxP)))) := by
  have heq : (filter_deck_hashes deck_table recent minP maxP).1 =
      select_spec deck_table recent minP maxP := by
    show ((((deck_table.map addSavedateDt).insertionSort entryGE).filter
        (priceOk minP maxP)).take recent).map DeckEntry.urlhash =
      select_spec deck_table recent minP maxP
    rw [← insertionSort_map_addSavedateDt, List.filter_map]
    have hpk : (priceOk minP maxP) ∘ addSavedateDt = priceOk minP maxP := by
      funext e
      rfl
    rw [hpk, ← List.map_take, List.map_map]
    have hhk : DeckEntry.urlhash ∘ addSavedateDt = DeckEntry.urlhash := by
      funext e
      rfl
    rw [hhk, filter_insertionSort]
    rfl
  refine ⟨heq, ?_, ?_, ?_, ?_⟩
  · rw [heq]
    unfold select_spec
    rw [List.length_map]
    exact (List.length_take_le _ _)
  · intro h hmem
    rw [heq] at hmem
    obtain ⟨e, he, rfl⟩ := List.mem_map.mp hmem
    have he₁ : e ∈ List.insertionSort entryDateGE
        (deck_table.filter (priceOk minP maxP)) :=
      (List.take_sublist _ _).mem he
    have he₂ := (List.mem_insertionSort entryDateGE).mp he₁
    obtain ⟨he₃, hP⟩ := List.mem_filter.mp he₂
    refine ⟨e, he₃, rfl, ?_⟩
    exact of_decide_eq_true hP
  · exact List.Pairwise.sublist (List.take_sublist _ _)
      (List.sorted_insertionSort entryDateGE _)
  · intro a b hdate hsub
    refine List.pair_sublist_insertionSort ?_ hsub
    show Date.le b.savedate a.savedate
    rw [hdate]
    exact Date.le_refl _

/-- Witness for C1: the three equal-priced entries dated 2024-01-01,
2024-03-01, 2024-02-01 select (with room for all three) in the order
most recent first. -/
theorem filter_deck_hashes_spec_witness :
    (filter_deck_hashes
        [{ urlhash := ("h1"), savedate := ⟨2024, 1, 1⟩, price := 50 },
         { urlhash := ("h2"), savedate := ⟨2024, 3, 1⟩, price := 50 },
         { urlhash := ("h3"), savedate := ⟨2024, 2, 1⟩, price := 50 }]
        3 0 100).1 =
      select_spec
        [{ urlhash := ("h1"), savedate := ⟨2024, 1, 1⟩, price := 50 },
         { urlhash := ("h2"), savedate := ⟨2024, 3, 1⟩, price := 50 },
         { urlhash := ("h3"), savedate := ⟨2024, 2, 1⟩, price := 50 }]
        3 0 100 ∧
    select_spec
        [{ urlhash := ("h1"), savedate := ⟨2024, 1, 1⟩, price := 50 },
         { urlhash := ("h2"), savedate := ⟨2024, 3, 1⟩, price := 50 },
         { urlhash := ("h3"), savedate := ⟨2024, 2, 1⟩, price := 50 }]
        3 0 100 = [("h2"), ("h3"), ("h1")] :=
  ⟨(filter_deck_hashes_spec _ 3 0 100).1, by decide⟩

/-- C8 counterexample: `filter_deck_hashes` does mutate its input — after
the call the (single) table entry has gained a `savedate_dt` key, so the
entries are not unchanged. -/
theorem filter_deck_hashes_mutates :
    (filter_deck_hashes
        [{ urlhash := ("h1"), savedate := ⟨2024, 1, 1⟩, price := 10 }]
        1 0 100).2 ≠
      [{ urlhash := ("h1"), savedate := ⟨2024, 1, 1⟩, price := 10 }] := by
  decide

/-- C8 amended: `filter_deck_hashes` is pure apart from its return value
and one mutation — it sets the derived `savedate_dt` field (the parsed
save date) on every input entry; no entry is added or removed and the
`urlhash`, `savedate` and `price` fields of every entry are untouched. -/
theorem filter_deck_hashes_frame (deck_table : List DeckEntry) (recent : Nat)
    (minP maxP : Rat) :
    (filter_deck_hashes deck_table recent minP maxP).2 =
        deck_table.map addSavedateDt
    ∧ ∀ e : DeckEntry, (addSavedateDt e).urlhash = e.urlhash
        ∧ (addSavedateDt e).savedate = e.savedate
        ∧ (addSavedateDt e).price = e.price
        ∧ (addSavedateDt e).savedate_dt = some e.savedate :=
  ⟨rfl, fun _ => ⟨rfl, rfl, rfl, rfl⟩⟩

/-! ## Helper lemmas: deck fetching -/

theorem fetch_decks_parallel_foldl
    (fetchResult : String → Except String (Option (List String)))
    (deck_hashes : List String) (acc : List (List String)) :
    deck_hashes.foldl
        (fun all_decks deck_id =>
          match fetchResult deck_id with
          | .error _ => all_decks
          | .ok none => all_decks
          | .ok (some deck) =>
              if deck = [] then all_decks else all_decks ++ [deck]) acc =
      acc ++ deck_hashes.filterMap
        (fun deck_id =>
          match fetchResult deck_id with
          | .ok (some deck) => if deck = [] then none else some deck
          | _ => none) := by
  induction deck_hashes generalizing acc with
  | nil => simp
  | cons h hs ih =>
    rw [List.foldl_cons, List.filterMap_cons]
    cases hf : fetchResult h with
    | error e => simp only [hf, ih]
    | ok o =>
      cases o with
      | none => simp only [hf, ih]
      | some deck =>
        by_cases hd : deck = []
        · subst hd
          simp [hf, ih]
        · simp only [hf, if_neg hd, ih, List.append_assoc, List.singleton_append]

/-! ## Claim theorems: deck cache round-trip -/

/-- C2 counterexample: the claim fails for the empty deck body.  After
`save_deck_to_cache("h", [])`, fetching `"h"` again is NOT served from
the cache — the empty list fails Python's `if cached:` truthiness test —
so the call rate-limits (`edhrecWaits` becomes 1), issues a network
request (`edhrecCalls` becomes 1) and returns whatever the remote side
now holds (here `["1 Sol Ring"]`, not the cached `[]`). -/
theorem fetch_deck_by_hash_empty_deck_refetches :
    ((fetch_deck_by_hash
        (save_deck_to_cache { build_id := some ("BUILD12345") } ("h") [])
        { homeStatus := 200, homeHtml := [], deckStatus := fun _ => 200,
          deckJson := fun _ => DeckJson.withDeck [("1 Sol Ring")],
          cardStatus := fun _ => 200, cardJson := fun _ => CardJson.invalid }
        ("h")).map
      (fun p => (p.1, p.2.edhrecCalls, p.2.edhrecWaits))) =
      .ok (some [("1 Sol Ring")], 1, 1) := by
  rfl

/-- C2 amended: for every NONEMPTY deck body `d`, after
`save_deck_to_cache(h, d)` a `fetch_deck_by_hash(h)` returns exactly the
cached `d` and leaves the state untouched — in particular it performs no
network request and no rate-limit wait (the request and wait counters
still equal those before the fetch). -/
theorem fetch_deck_by_hash_cache_roundtrip (st : AnalyzerState)
    (env : EdhrecEnv) (h : String) (d : List String) (hne : d ≠ []) :
    fetch_deck_by_hash (save_deck_to_cache st h d) env h =
        .ok (some d, save_deck_to_cache st h d)
    ∧ (save_deck_to_cache st h d).edhrecCalls = st.edhrecCalls
    ∧ (save_deck_to_cache st h d).edhrecWaits = st.edhrecWaits := by
  refine ⟨?_, rfl, rfl⟩
  have hload : load_deck_from_cache (save_deck_to_cache st h d) h = some d := by
    unfold load_deck_from_cache save_deck_to_cache
    simp [dictGet?_dictInsert]
  unfold fetch_deck_by_hash
  rw [hload]
  simp [pyTruthyDeck, hne]

/-- Witness for C2 (amended) at a concrete state and deck. -/
theorem fetch_deck_by_hash_cache_roundtrip_witness :
    fetch_deck_by_hash
        (save_deck_to_cache { } ("h") [("1 Sol Ring")])
        { homeStatus := 404, homeHtml := [], deckStatus := fun _ => 404,
          deckJson := fun _ => DeckJson.invalid, cardStatus := fun _ => 404,
          cardJson := fun _ => CardJson.invalid } ("h") =
      .ok (some [("1 Sol Ring")], save_deck_to_cache { } ("h") [("1 Sol Ring")]) :=
  (fetch_deck_by_hash_cache_roundtrip { }
    { homeStatus := 404, homeHtml := [], deckStatus := fun _ => 404,
      deckJson := fun _ => DeckJson.invalid, cardStatus := fun _ => 404,
      cardJson := fun _ => CardJson.invalid } ("h") [("1 Sol Ring")]
    (by decide)).1

/-! ## Claim theorems: per-deck failure isolation -/

/-- C3 counterexample: on a deck-detail response that is invalid JSON
(with success status), `fetch_deck_by_hash` does NOT return `None` — it
raises.  `r.json()` fails with a `JSONDecodeError` (a `ValueError`),
which the surrounding `except KeyError` does not catch. -/
theorem fetch_deck_by_hash_invalid_json_raises :
    fetch_deck_by_hash { build_id := some ("BUILD12345") }
        { homeStatus := 200, homeHtml := [], deckStatus := fun _ => 200,
          deckJson := fun _ => DeckJson.invalid, cardStatus := fun _ => 200,
          cardJson := fun _ => CardJson.invalid } ("h") =
      .error ("JSONDecodeError") := by
  rfl

/-- C3 amended: with the build id resolved and no usable cache entry,
`fetch_deck_by_hash` returns `None` without raising on a non-success
status and on a body whose `pageProps.data.deck` path is missing; on
invalid JSON it raises instead — but `fetch_decks_parallel` catches the
exception, and in every case each hash's contribution to the batch
output depends only on that hash's own outcome (the output is the
per-hash `filterMap` of the successful, truthy decks), so one hash's
failure never affects the results for the other hashes. -/
theorem fetch_deck_failure_isolation :
    (∀ (st : AnalyzerState) (env : EdhrecEnv) (h : String),
      pyTruthyId st.build_id = true →
      pyTruthyDeck (load_deck_from_cache st h) = false →
      env.deckStatus h ≠ 200 →
      fetch_deck_by_hash st env h =
        .ok (none, { st with edhrecWaits := st.edhrecWaits + 1,
                             edhrecCalls := st.edhrecCalls + 1 }))
    ∧ (∀ (st : AnalyzerState) (env : EdhrecEnv) (h : String),
      pyTruthyId st.build_id = true →
      pyTruthyDeck (load_deck_from_cache st h) = false →
      env.deckStatus h = 200 →
      env.deckJson h = DeckJson.missingDeckPath →
      fetch_deck_by_hash st env h =
        .ok (none, { st with edhrecWaits := st.edhrecWaits + 1,
                             edhrecCalls := st.edhrecCalls + 1 }))
    ∧ (∀ (fetchResult : String → Except String (Option (List String)))
        (deck_hashes : List String),
      fetch_decks_parallel fetchResult deck_hashes =
        deck_hashes.filterMap
          (fun deck_id =>
            match fetchResult deck_id with
            | .ok (some deck) => if deck = [] then none else some deck
            | _ => none)) := by
  refine ⟨?_, ?_, ?_⟩
  · intro st env h hbid hmiss hstatus
    unfold fetch_deck_by_hash
    simp only [hmiss, Bool.false_eq_true, if_false, hbid, if_true]
    simp [rate_limit_edhrec, hstatus]
  · intro st env h hbid hmiss hstatus hjson
    unfold fetch_deck_by_hash
    simp only [hmiss, Bool.false_eq_true, if_false, hbid, if_true]
    simp [rate_limit_edhrec, hstatus, hjson]
  · intro fetchResult deck_hashes
    unfold fetch_decks_parallel
    rw [fetch_decks_parallel_foldl]
    rfl

/-- Witness for C3 (amended): a 404 deck-detail response yields `None`
with the counters bumped once. -/
theorem fetch_deck_failure_isolation_witness :
    fetch_deck_by_hash { build_id := some ("BUILD12345") }
        { homeStatus := 200, homeHtml := [], deckStatus := fun _ => 404,
          deckJson := fun _ => DeckJson.invalid, cardStatus := fun _ => 200,
          cardJson := fun _ => CardJson.invalid } ("h") =
      .ok (none, { build_id := some ("BUILD12345"), edhrecWaits := 1,
                   edhrecCalls := 1 }) :=
  fetch_deck_failure_isolation.1 { build_id := some ("BUILD12345") }
    { homeStatus := 200, homeHtml := [], deckStatus := fun _ => 404,
      deckJson := fun _ => DeckJson.invalid, cardStatus := fun _ => 200,
      cardJson := fun _ => CardJson.invalid } ("h") (by decide) (by decide)
    (by decide)

/-! ## Claim theorems: card-type lookup caching -/

/-- C6: a card-type lookup that misses the cache and gets a non-success
status, or a success body without a `type_line` field, returns the
sentinel `"Unknown"` and stores it in the (persisted) cache; afterwards
every lookup of that name — in this run or in a later run reloading the
persisted cache — is answered from the cache with the state unchanged
(hence no rate-limit wait and no network request), the failed lookup is
never retried, and no existing cache entry is ever overwritten. -/
theorem get_card_type_failed_lookup_cached (st : AnalyzerState)
    (env : EdhrecEnv) (card : String)
    (hmiss : dictGet? st.scryfallCache card = none)
    (hfail : env.cardStatus card ≠ 200 ∨
      (env.cardStatus card = 200 ∧
        env.cardJson card = CardJson.withTypeLine none)) :
    ∃ st', get_card_type st env card = .ok (("Unknown"), st')
      ∧ dictGet? st'.scryfallCache card = some ("Unknown")
      ∧ (∀ k v, dictGet? st.scryfallCache k = some v →
          dictGet? st'.scryfallCache k = some v)
      ∧ (∀ env₂, get_card_type st' env₂ card = .ok (("Unknown"), st'))
      ∧ (∀ env₂, get_card_type (freshRun st') env₂ card =
          .ok (("Unknown"), freshRun st'))
      ∧ (freshRun st').scryfallCalls = 0
      ∧ (freshRun st').scryfallWaits = 0 := by
  refine ⟨save_scryfall
    { st with scryfallWaits := st.scryfallWaits + 1,
              scryfallCalls := st.scryfallCalls + 1 } card ("Unknown"),
    ?_, ?_, ?_, ?_, ?_, rfl, rfl⟩
  · unfold get_card_type
    rcases hfail with h404 | ⟨h200, hjson⟩
    · simp [hmiss, rate_limit_scryfall, h404]
    · simp [hmiss, rate_limit_scryfall, h200, hjson]
  · simp [save_scryfall, dictGet?_dictInsert]
  · intro k v hk
    simp only [save_scryfall, dictGet?_dictInsert]
    by_cases hck : card = k
    · subst hck
      rw [hmiss] at hk
      exact absurd hk (by simp)
    · simp [hck, hk]
  · intro env₂
    have hhit : dictGet? (save_scryfall
        { st with scryfallWaits := st.scryfallWaits + 1,
                  scryfallCalls := st.scryfallCalls + 1 }
        card ("Unknown")).scryfallCache card = some ("Unknown") := by
      simp [save_scryfall, dictGet?_dictInsert]
    unfold get_card_type
    rw [hhit]
  · intro env₂
    have hhit : dictGet? (freshRun (save_scryfall
        { st with scryfallWaits := st.scryfallWaits + 1,
                  scryfallCalls := st.scryfallCalls + 1 }
        card ("Unknown"))).scryfallCache card = some ("Unknown") := by
      simp [freshRun, save_scryfall, dictGet?_dictInsert]
    unfold get_card_type
    rw [hhit]

/-- Witness for C6: a 404 lookup for a fresh name on a fresh cache. -/
theorem get_card_type_failed_lookup_cached_witness :
    ∃ st', get_card_type { }
        { homeStatus := 200, homeHtml := [], deckStatus := fun _ => 200,
          deckJson := fun _ => DeckJson.invalid,
          cardStatus := fun _ => 404, cardJson := fun _ => CardJson.invalid }
        ("Black Lotus") = .ok (("Unknown"), st')
      ∧ dictGet? st'.scryfallCache ("Black Lotus") = some ("Unknown") := by
  obtain ⟨st', h1, h2, -⟩ := get_card_type_failed_lookup_cached { }
    { homeStatus := 200, homeHtml := [], deckStatus := fun _ => 200,
      deckJson := fun _ => DeckJson.invalid,
      cardStatus := fun _ => 404, cardJson := fun _ => CardJson.invalid }
    ("Black Lotus") rfl (Or.inl (by decide))
  exact ⟨st', h1, h2⟩

/-! ## Helper lemmas: build-id discovery paths -/

theorem build_id_path_error_status (st : AnalyzerState) (env : EdhrecEnv)
    (hnone : st.build_id = none) (h : env.homeStatus ≠ 200) :
    fetch_edhrec_build_id st env =
      .error ("Failed to load EDHREC homepage to detect build ID") := by
  unfold fetch_edhrec_build_id
  rw [hnone]
  simp [pyTruthyId, h]

theorem build_id_path_error_marker (st : AnalyzerState) (env : EdhrecEnv)
    (hnone : st.build_id = none) (hstatus : env.homeStatus = 200)
    (hfind : findSubFrom env.homeHtml buildManifestMarker 0 = none) :
    fetch_edhrec_build_id st env =
      .error ("Could not find _buildManifest.js reference in homepage.") := by
  unfold fetch_edhrec_build_id
  rw [hnone]
  simp [pyTruthyId, hstatus, hfind]

theorem build_id_path_error_static (st : AnalyzerState) (env : EdhrecEnv)
    (idx : Nat) (hnone : st.build_id = none) (hstatus : env.homeStatus = 200)
    (hidx : findSubFrom env.homeHtml buildManifestMarker 0 = some idx)
    (hsidx : rfindSub (env.homeHtml.take idx) staticMarker = none) :
    fetch_edhrec_build_id st env =
      .error ("Could not locate /_next/static/ in homepage.") := by
  unfold fetch_edhrec_build_id
  rw [hnone]
  simp [pyTruthyId, hstatus, hidx, hsidx]

theorem build_id_path_error_short (st : AnalyzerState) (env : EdhrecEnv)
    (idx sIdx : Nat) (hnone : st.build_id = none)
    (hstatus : env.homeStatus = 200)
    (hidx : findSubFrom env.homeHtml buildManifestMarker 0 = some idx)
    (hsidx : rfindSub (env.homeHtml.take idx) staticMarker = some sIdx)
    (hlen : (buildIdSlice env.homeHtml idx sIdx).length < 5) :
    fetch_edhrec_build_id st env =
      .error (("Extracted invalid EDHREC build ID: ") ++
        String.mk (buildIdSlice env.homeHtml idx sIdx)) := by
  unfold fetch_edhrec_build_id
  rw [hnone]
  have hcond : String.mk (buildIdSlice env.homeHtml idx sIdx) = ("") ∨
      (buildIdSlice env.homeHtml idx sIdx).length < 5 :=
    Or.inr hlen
  unfold buildIdSlice at hcond
  simp [pyTruthyId, hstatus, hidx, hsidx]
  rw [if_pos hcond]
  rfl

theorem build_id_path_ok (st : AnalyzerState) (env : EdhrecEnv)
    (idx sIdx : Nat) (hnone : st.build_id = none)
    (hstatus : env.homeStatus = 200)
    (hidx : findSubFrom env.homeHtml buildManifestMarker 0 = some idx)
    (hsidx : rfindSub (env.homeHtml.take idx) staticMarker = some sIdx)
    (hlen : ¬(buildIdSlice env.homeHtml idx sIdx).length < 5) :
    fetch_edhrec_build_id st env =
      .ok (String.mk (buildIdSlice env.homeHtml idx sIdx),
        { st with edhrecWaits := st.edhrecWaits + 1,
                  edhrecCalls := st.edhrecCalls + 1,
                  build_id :=
                    some (String.mk (buildIdSlice env.homeHtml idx sIdx)) }) := by
  unfold fetch_edhrec_build_id
  rw [hnone]
  have hcond : ¬(String.mk (buildIdSlice env.homeHtml idx sIdx) = ("") ∨
      (buildIdSlice env.homeHtml idx sIdx).length < 5) := by
    rintro (he | hl)
    · refine hlen ?_
      have hnil : buildIdSlice env.homeHtml idx sIdx = [] :=
        congrArg String.data he
      rw [hnil]
      decide
    · exact hlen hl
  unfold buildIdSlice at hcond
  simp [pyTruthyId, hstatus, hidx, hsidx]
  rw [if_neg hcond]
  rfl

/-! ## Claim theorems: build-id discovery -/

/-- C7 counterexample: the claim's description of the success value
fails when no `/` follows the path prefix before the marker.  On the
page `"/_next/static/ABCDEF_buildManifest.js"` there is no `/` at or
after the character following the prefix in the scanned region (second
conjunct), so no "path segment lying between the prefix and the next
`/`" exists; yet the call succeeds — `find` returns `-1` and the slice
`[start:-1]` silently drops the final character, yielding `"ABCDE"`
(not even the full remainder `"ABCDEF"`). -/
theorem fetch_edhrec_build_id_no_next_slash :
    ((fetch_edhrec_build_id { }
        { homeStatus := 200,
          homeHtml := ("/_next/static/ABCDEF_buildManifest.js").data,
          deckStatus := fun _ => 200, deckJson := fun _ => DeckJson.invalid,
          cardStatus := fun _ => 200,
          cardJson := fun _ => CardJson.invalid }).map (fun p => p.1) =
      .ok ("ABCDE"))
    ∧ findSubFrom (("/_next/static/ABCDEF").data) [('/')] 14 = none := by
  constructor
  · rfl
  · decide

/-- C7 amended: starting without a memoized id, `fetch_edhrec_build_id`
fails exactly when the root page has a non-success status, the
`_buildManifest.js` marker is absent, no `/_next/static/` occurs before
the marker, or the extracted segment is shorter than 5 characters
(which subsumes empty); on success it returns the extracted segment —
the characters from the end of the prefix up to the next `/` when such
a `/` exists (when none exists, the slice-with-`-1` end instead cuts at
the second-to-last character of the scanned region) — and memoizes it,
so every subsequent call returns the same token with the state
untouched (no further request). -/
theorem fetch_edhrec_build_id_spec (st : AnalyzerState) (env : EdhrecEnv)
    (hnone : st.build_id = none) :
    ((∃ e, fetch_edhrec_build_id st env = .error e) ↔
      (env.homeStatus ≠ 200
        ∨ findSubFrom env.homeHtml buildManifestMarker 0 = none
        ∨ (∃ idx, findSubFrom env.homeHtml buildManifestMarker 0 = some idx
            ∧ rfindSub (env.homeHtml.take idx) staticMarker = none)
        ∨ (∃ idx sIdx,
            findSubFrom env.homeHtml buildManifestMarker 0 = some idx
            ∧ rfindSub (env.homeHtml.take idx) staticMarker = some sIdx
            ∧ (buildIdSlice env.homeHtml idx sIdx).length < 5)))
    ∧ (∀ idx sIdx slashIdx, env.homeStatus = 200 →
        findSubFrom env.homeHtml buildManifestMarker 0 = some idx →
        rfindSub (env.homeHtml.take idx) staticMarker = some sIdx →
        findSubFrom (env.homeHtml.take idx) [('/')]
            (sIdx + staticMarker.length) = some slashIdx →
        ¬(buildIdSlice env.homeHtml idx sIdx).length < 5 →
        ∃ st', fetch_edhrec_build_id st env =
          .ok (String.mk (((env.homeHtml.take idx).take slashIdx).drop
            (sIdx + staticMarker.length)), st'))
    ∧ (∀ b st', fetch_edhrec_build_id st env = .ok (b, st') →
        st'.build_id = some b ∧
          ∀ env₂, fetch_edhrec_build_id st' env₂ = .ok (b, st')) := by
  refine ⟨?_, ?_, ?_⟩
  · by_cases h200 : env.homeStatus = 200
    · cases hidx : findSubFrom env.homeHtml buildManifestMarker 0 with
      | none =>
        rw [build_id_path_error_marker st env hnone h200 hidx]
        exact iff_of_true ⟨_, rfl⟩ (Or.inr (Or.inl rfl))
      | some idx =>
        cases hsidx : rfindSub (env.homeHtml.take idx) staticMarker with
        | none =>
          rw [build_id_path_error_static st env idx hnone h200 hidx hsidx]
          exact iff_of_true ⟨_, rfl⟩
            (Or.inr (Or.inr (Or.inl ⟨idx, rfl, hsidx⟩)))
        | some sIdx =>
          by_cases hlen : (buildIdSlice env.homeHtml idx sIdx).length < 5
          · rw [build_id_path_error_short st env idx sIdx hnone h200 hidx
              hsidx hlen]
            exact iff_of_true ⟨_, rfl⟩
              (Or.inr (Or.inr (Or.inr ⟨idx, sIdx, rfl, hsidx, hlen⟩)))
          · rw [build_id_path_ok st env idx sIdx hnone h200 hidx hsidx hlen]
            refine iff_of_false (fun he => ?_) ?_
            · obtain ⟨e, he⟩ := he
              exact Except.noConfusion he
            · rintro (hA | hB | ⟨idx', hi', hr'⟩ | ⟨idx', sIdx', hi', hs', hl'⟩)
              · exact hA h200
              · exact Option.noConfusion hB
              · obtain rfl : idx = idx' := Option.some.inj hi'
                rw [hsidx] at hr'
                exact Option.noConfusion hr'
              · obtain rfl : idx = idx' := Option.some.inj hi'
                rw [hsidx] at hs'
                obtain rfl : sIdx = sIdx' := Option.some.inj hs'
                exact hlen hl'
    · rw [build_id_path_error_status st env hnone h200]
      exact iff_of_true ⟨_, rfl⟩ (Or.inl h200)
  · intro idx sIdx slashIdx h200 hidx hsidx hslash hlen
    have hval : buildIdSlice env.homeHtml idx sIdx =
        ((env.homeHtml.take idx).take slashIdx).drop
          (sIdx + staticMarker.length) := by
      unfold buildIdSlice
      rw [hslash]
      rfl
    have hok := build_id_path_ok st env idx sIdx hnone h200 hidx hsidx hlen
    rw [hval] at hok
    exact ⟨_, hok⟩
  · intro b st' hok
    by_cases h200 : env.homeStatus = 200
    · cases hidx : findSubFrom env.homeHtml buildManifestMarker 0 with
      | none =>
        rw [build_id_path_error_marker st env hnone h200 hidx] at hok
        exact Except.noConfusion hok
      | some idx =>
        cases hsidx : rfindSub (env.homeHtml.take idx) staticMarker with
        | none =>
          rw [build_id_path_error_static st env idx hnone h200 hidx hsidx]
            at hok
          exact Except.noConfusion hok
        | some sIdx =>
          by_cases hlen : (buildIdSlice env.homeHtml idx sIdx).length < 5
          · rw [build_id_path_error_short st env idx sIdx hnone h200 hidx
              hsidx hlen] at hok
            exact Except.noConfusion hok
          · rw [build_id_path_ok st env idx sIdx hnone h200 hidx hsidx hlen]
              at hok
            simp only [Except.ok.injEq, Prod.mk.injEq] at hok
            obtain ⟨hb, hst⟩ := hok
            have hbne : b ≠ ("") := by
              intro he
              refine hlen ?_
              have h0 : (String.mk (buildIdSlice env.homeHtml idx sIdx)).length
                  = 0 := by
                rw [hb, he]
                rfl
              have h0' : (buildIdSlice env.homeHtml idx sIdx).length = 0 := h0
              omega
            constructor
            · rw [← hst, ← hb]
            · intro env₂
              have hbid : st'.build_id = some b := by rw [← hst, ← hb]
              unfold fetch_edhrec_build_id
              rw [hbid]
              simp [pyTruthyId, hbne]
    · rw [build_id_path_error_status st env hnone h200] at hok
      exact Except.noConfusion hok

/-- Witness for C7 (amended): on a well-formed page the build id
`"BUILD123ab"` between the prefix and the next `/` is returned. -/
theorem fetch_edhrec_build_id_spec_witness :
    ∃ st', fetch_edhrec_build_id { }
        { homeStatus := 200,
          homeHtml :=
            ("<a href=\"/_next/static/BUILD123ab/_buildManifest.js\">").data,
          deckStatus := fun _ => 200, deckJson := fun _ => DeckJson.invalid,
          cardStatus := fun _ => 200,
          cardJson := fun _ => CardJson.invalid } =
      .ok (("BUILD123ab"), st') := by
  obtain ⟨st', h⟩ := (fetch_edhrec_build_id_spec { }
    { homeStatus := 200,
      homeHtml :=
        ("<a href=\"/_next/static/BUILD123ab/_buildManifest.js\">").data,
      deckStatus := fun _ => 200, deckJson := fun _ => DeckJson.invalid,
      cardStatus := fun _ => 200,
      cardJson := fun _ => CardJson.invalid } rfl).2.1
    34 9 33 rfl (by decide) (by decide) (by decide) (by decide)
  refine ⟨st', ?_⟩
  rw [h]
  rfl

end EDHRec
